import Mathlib

/-! Shallow embedding of the member-resolution pipeline of `discord-callsign-bot`
(src/parser.rs, src/output.rs, src/config.rs, src/main.rs), with theorems
settling the frozen claims about its specification.

Strings are modelled as Lean `String`/`List Char`.  The regex character
classes in the source are ASCII (`[A-Z0-9]`, `[0-9]`, `[A-Z]`); the word
boundary `\b` is modelled with word characters `[A-Za-z0-9_]` (the ASCII
portion of the regex crate's `\w`).
-/

namespace CallsignBot

/-- Character class `[A-Z]` of the callsign regex. -/
def isUpperAZ (c : Char) : Bool := 'A' ≤ c && c ≤ 'Z'

/-- Character class `[0-9]` of the callsign regex. -/
def isDigit09 (c : Char) : Bool := '0' ≤ c && c ≤ '9'

/-- Character class `[A-Z0-9]` of the callsign regex. -/
def isPrefixChar (c : Char) : Bool := isUpperAZ c || isDigit09 c

/-- Word character for the `\b` assertion (`[A-Za-z0-9_]`). -/
def isWordChar (c : Char) : Bool := c.isAlphanum || c == '_'

/-- Whether position `j` of `s` holds a word character (`false` out of range). -/
def wordAt (s : List Char) (j : Nat) : Bool :=
  match s[j]? with
  | some c => isWordChar c
  | none => false

/-- The `\b` assertion at position `j`: word-ness changes between `j-1` and `j`
(string ends count as non-word). -/
def boundaryAt (s : List Char) (j : Nat) : Bool :=
  (if j == 0 then false else wordAt s (j - 1)) != wordAt s j

/-- Checks `n` consecutive characters of `s` starting at `i` all in class `pred`. -/
def classRun (pred : Char → Bool) (s : List Char) (i n : Nat) : Bool :=
  ((s.drop i).take n).length == n && ((s.drop i).take n).all pred

/-- Backtracking preference order of `[A-Z0-9]{1,2}[0-9][A-Z]{1,3}`:
greedy prefix length first, then greedy suffix length. -/
def candidateShapes : List (Nat × Nat) := [(2, 3), (2, 2), (2, 1), (1, 3), (1, 2), (1, 1)]

/-- Length of the match of `\b[A-Z0-9]{1,2}[0-9][A-Z]{1,3}\b` anchored at
position `i` of `s`, under leftmost-first (Perl-style greedy) preference;
`none` when no shape matches at `i`. -/
def matchLenAt (s : List Char) (i : Nat) : Option Nat :=
  if boundaryAt s i then
    candidateShapes.findSome? fun pq =>
      if classRun isPrefixChar s i pq.1
          && classRun isDigit09 s (i + pq.1) 1
          && classRun isUpperAZ s (i + pq.1 + 1) pq.2
          && boundaryAt s (i + pq.1 + 1 + pq.2) then
        some (pq.1 + 1 + pq.2)
      else
        none
  else
    none

/-- Model of `Regex::find` for the callsign pattern: the match at the leftmost
matching position, returned as `(start, length)`. -/
def findMatch (s : List Char) : Option (Nat × Nat) :=
  (List.range (s.length + 1)).findSome? fun i =>
    (matchLenAt s i).map fun n => (i, n)

/-- Rust's `str::replace`, one step per character: `k > 0` means `k`
characters of a previously matched occurrence still have to be skipped.
Occurrences of `pat` are found left to right, non-overlapping. -/
def replaceAllAux (pat rep : List Char) : List Char → Nat → List Char
  | [], _ => []
  | _ :: cs, Nat.succ k => replaceAllAux pat rep cs k
  | c :: cs, 0 =>
    if pat ≠ [] ∧ pat.isPrefixOf (c :: cs) then
      rep ++ replaceAllAux pat rep cs (pat.length - 1)
    else
      c :: replaceAllAux pat rep cs 0

/-- Rust's `str::replace(pat, rep)` on `s` (replaces every occurrence). -/
def replaceAll (pat rep s : List Char) : List Char :=
  replaceAllAux pat rep s 0

/-- Rust's `str::trim` (whitespace here is the ASCII whitespace of the
inputs this program handles). -/
def trimChars (s : List Char) : List Char :=
  ((s.dropWhile Char.isWhitespace).reverse.dropWhile Char.isWhitespace).reverse

/-- The separator-stripping chain of `CallsignParser::parse`:
`" - "` → `" "`, then `" -"` → `""`, `"- "` → `""`, `"("` → `""`, `")"` → `""`. -/
def stripSeparators (s : List Char) : List Char :=
  replaceAll [')'] []
    (replaceAll ['('] []
      (replaceAll ['-', ' '] []
        (replaceAll [' ', '-'] []
          (replaceAll [' ', '-', ' '] [' '] s))))

/-- Structure `MemberInfo` of src/parser.rs. -/
structure MemberInfo where
  callsign : String
  name : String
deriving Repr, DecidableEq

/-- Function `CallsignParser::parse` of src/parser.rs: find the leftmost callsign
match, remove every occurrence of the matched text (`String::replace`),
strip separators, trim; empty remainder falls back to the callsign. -/
def parse (display_name : String) : Option MemberInfo :=
  match findMatch display_name.toList with
  | none => none
  | some st =>
    let cs := (display_name.toList.drop st.1).take st.2
    let cleaned := trimChars (stripSeparators (replaceAll cs [] display_name.toList))
    let name := if cleaned = [] then String.mk cs else String.mk cleaned
    some { callsign := String.mk cs, name := name }

/-- Function `CallsignParser::is_callsign` of src/parser.rs. -/
def is_callsign (text : String) : Bool :=
  (findMatch text.toList).isSome

example : parse "W6JSV - Jay" = some { callsign := "W6JSV", name := "Jay" } := by decide
example : parse "Forrest KI7QCF" = some { callsign := "KI7QCF", name := "Forrest" } := by decide
example : parse "Jay (W6JSV)" = some { callsign := "W6JSV", name := "Jay" } := by decide
example : parse "W6JSV" = some { callsign := "W6JSV", name := "W6JSV" } := by decide
example : is_callsign "notacallsign" = false := by decide
example : is_callsign "123456" = false := by decide

/-- Removal of only the first occurrence of `pat` from a string (what the
spec's name-derivation sentence asks for; the source uses `replace`, which
removes every occurrence). -/
def replaceFirst (pat : List Char) : List Char → List Char
  | [] => []
  | c :: cs =>
    if pat ≠ [] ∧ pat.isPrefixOf (c :: cs) then
      cs.drop (pat.length - 1)
    else
      c :: replaceFirst pat cs

/-- Spec-side name derivation, following the spec's words: remove only the
first occurrence of the matched callsign from the original text, strip the
separator set, trim; empty remainder falls back to the callsign. -/
def specNameRemoveFirst (text callsign : String) : String :=
  let cleaned := trimChars (stripSeparators (replaceFirst callsign.toList text.toList))
  if cleaned = [] then callsign else String.mk cleaned

/-- Spec-side name derivation with every (left-to-right, non-overlapping)
occurrence of the matched callsign removed — the amended form of the claim. -/
def specNameRemoveAll (text callsign : String) : String :=
  let cleaned := trimChars (stripSeparators (replaceAll callsign.toList [] text.toList))
  if cleaned = [] then callsign else String.mk cleaned

/-- Structure `OutputEntry` of src/output.rs. -/
structure OutputEntry where
  callsign : String
  name : String
  suffix : String
  emoji_separator : String
deriving Repr, DecidableEq

/-- One rendered line of `generate_output_content`:
`format!("{} {} {} {}\n", callsign, emoji_separator, name, suffix)`. -/
def entryLine (e : OutputEntry) : String :=
  e.callsign ++ " " ++ e.emoji_separator ++ " " ++ e.name ++ " " ++ e.suffix ++ "\n"

/-- The optional `"# TITLE: {}\n"` header line of `generate_output_content`. -/
def titleHeader : Option String → String
  | some t => "# TITLE: " ++ t ++ "\n"
  | none => ""

/-- The comparator of `sorted_entries.sort_by(|a, b| a.callsign.cmp(&b.callsign))`:
Rust `String` order is byte-wise lexicographic, which agrees with Lean's
code-point lexicographic `String` order on UTF-8 data. -/
def sortLE (a b : OutputEntry) : Prop := a.callsign ≤ b.callsign

instance : DecidableRel sortLE :=
  fun a b => inferInstanceAs (Decidable (a.callsign ≤ b.callsign))

instance : IsTotal OutputEntry sortLE := ⟨fun a b => le_total a.callsign b.callsign⟩

instance : IsTrans OutputEntry sortLE := ⟨fun _ _ _ h₁ h₂ => le_trans h₁ h₂⟩

/-- Function `generate_output_content` of src/output.rs: optional title header, then
the entries stably sorted by callsign, one `entryLine` each.  Rust's
`sort_by` is a stable sort, as is insertion sort with `sortLE`. -/
def generate_output_content (entries : List OutputEntry) (title : Option String) : String :=
  titleHeader title ++ String.join ((List.insertionSort sortLE entries).map entryLine)

/-- The deduplication loop of `Handler::generate_member_list`
(src/main.rs lines 185-199): `seen_callsigns` keys paired with
`unique_entries`.  The `HashMap` is modelled by its key set as a list;
only `contains_key`, `insert` of fresh keys, and `len` are used. -/
def dedupeSeen : List String → List OutputEntry → List String × List OutputEntry
  | seen, [] => (seen, [])
  | seen, e :: es =>
    if e.callsign ∈ seen then
      dedupeSeen seen es
    else
      let r := dedupeSeen (seen ++ [e.callsign]) es
      (r.1, e :: r.2)

/-- The `unique_entries` produced by the deduplication loop. -/
def dedupeUnique (entries : List OutputEntry) : List OutputEntry :=
  (dedupeSeen [] entries).2

/-- The duplicate count the code reports (src/main.rs line 204):
`seen_callsigns.len() - unique_entries.len()`. -/
def reportedDuplicates (entries : List OutputEntry) : Nat :=
  (dedupeSeen [] entries).1.length - (dedupeSeen [] entries).2.length

/-- Structure `CallsignInfo` of src/qrz.rs. -/
structure CallsignInfo where
  fname : Option String
  name : Option String
  nickname : Option String

/-- Fallback of `QrzClient::get_display_name` to the `name` field. -/
def displayNameFromName (info : CallsignInfo) : Option String :=
  match info.name with
  | some n => if n.isEmpty then none else some n
  | none => none

/-- Fallback of `QrzClient::get_display_name` to `fname`, then `name`. -/
def displayNameFromFname (info : CallsignInfo) : Option String :=
  match info.fname with
  | some f => if f.isEmpty then displayNameFromName info else some f
  | none => displayNameFromName info

/-- Function `QrzClient::get_display_name` of src/qrz.rs: non-empty `nickname`,
else non-empty `fname`, else non-empty `name`, else `None`. -/
def get_display_name (info : CallsignInfo) : Option String :=
  match info.nickname with
  | some nick => if nick.isEmpty then displayNameFromFname info else some nick
  | none => displayNameFromFname info

/-- The override record as consumed by `Handler::generate_member_list`
(src/main.rs lines 108-133): optional `callsign`, `name`, `suffix`, `emoji`. -/
structure OverrideConfig where
  callsign : Option String
  name : Option String
  suffix : Option String
  emoji : Option String

/-- The guild configuration fields the pipeline reads: the override map
(`get_override`, keyed by the member's user-id string) and the scope
defaults `default_suffix`, `emoji_separator`, `title`. -/
structure GuildConfigModel where
  overrides : String → Option OverrideConfig
  default_suffix : String
  emoji_separator : String
  title : Option String

/-- The override branch of `Handler::generate_member_list`
(src/main.rs lines 108-140): per-field `clone().or_else(..).unwrap_or_else(..)`. -/
def resolveOverride (ov : OverrideConfig) (parsed : Option MemberInfo)
    (display_name : String) (cfg : GuildConfigModel) : OutputEntry :=
  { callsign := (ov.callsign.or (parsed.map MemberInfo.callsign)).getD "UNKNOWN"
    name := (ov.name.or (parsed.map MemberInfo.name)).getD display_name
    suffix := ov.suffix.getD cfg.default_suffix
    emoji_separator := ov.emoji.getD cfg.emoji_separator }

/-- A guild member as read by the pipeline: user-id string, optional
nickname and global name, and the account username. -/
structure Member where
  id : String
  nick : Option String
  global_name : Option String
  username : String

/-- The name-field selection of src/main.rs lines 83-98: map each present
field to `(parse(field), field)`, take the first whose parse succeeded,
else `(None, username)`. -/
def resolveNameField (m : Member) : Option MemberInfo × String :=
  let candidates :=
    [m.nick, m.global_name, some m.username].filterMap
      (fun field => field.map (fun name => (parse name, name)))
  match candidates.find? (fun pr => pr.1.isSome) with
  | some pr => pr
  | none => (none, m.username)

/-- Per-member resolution of `Handler::generate_member_list`
(src/main.rs lines 81-182).  The optional QRZ client together with each
lookup's outcome is a function `String → Except Unit CallsignInfo` held
fixed for the run; `Except.error` models `Err` from `lookup_callsign`. -/
def processMember (cfg : GuildConfigModel)
    (qrz : Option (String → Except Unit CallsignInfo)) (m : Member) :
    Option OutputEntry :=
  let r := resolveNameField m
  match cfg.overrides m.id with
  | some ov => some (resolveOverride ov r.1 r.2 cfg)
  | none =>
    match r.1 with
    | some p =>
      let name :=
        match qrz with
        | some lookup =>
          match lookup p.callsign with
          | Except.ok info =>
            match get_display_name info with
            | some qrz_name => qrz_name
            | none => p.name
          | Except.error _ => p.name
        | none => p.name
      some { callsign := p.callsign, name := name,
             suffix := cfg.default_suffix, emoji_separator := cfg.emoji_separator }
    | none => none

/-- The callsigns `processMember` passes to `lookup_callsign`: the single
call site sits in the no-override, parse-succeeded branch, guarded by the
client's presence. -/
def processMemberLookups (cfg : GuildConfigModel)
    (qrz : Option (String → Except Unit CallsignInfo)) (m : Member) :
    List String :=
  let r := resolveNameField m
  match cfg.overrides m.id with
  | some _ => []
  | none =>
    match r.1, qrz with
    | some _, none => []
    | some p, some _ => [p.callsign]
    | none, _ => []

/-- The `entries` vector of `Handler::generate_member_list`: non-bot
members, each contributing at most one entry, in snapshot order. -/
def memberEntries (cfg : GuildConfigModel)
    (qrz : Option (String → Except Unit CallsignInfo))
    (members : List Member) (botId : String) : List OutputEntry :=
  (members.filter (fun m => !(m.id == botId))).filterMap (processMember cfg qrz)

/-- Function `Handler::generate_member_list` (src/main.rs lines 52-227) up to the
rendered text: resolve members, deduplicate, render. -/
def generate_member_list (cfg : GuildConfigModel)
    (qrz : Option (String → Except Unit CallsignInfo))
    (members : List Member) (botId : String) : String :=
  generate_output_content (dedupeUnique (memberEntries cfg qrz members botId)) cfg.title

/-- The raw TOML fields of the `[output]` table (present or absent). -/
structure OutputConfigToml where
  file_path : Option String
  default_suffix : Option String
  emoji_separator : Option String

/-- Structure `OutputConfig` of src/config.rs. -/
structure OutputConfig where
  file_path : String
  default_suffix : String
  emoji_separator : String
deriving Repr, DecidableEq

/-- Function `default_emoji_separator` of src/config.rs. -/
def default_emoji_separator : String := "📻"

/-- serde deserialization of `OutputConfig` (src/config.rs lines 20-30):
fields without attributes are required — deserialization fails when one is
absent; `emoji_separator` carries `#[serde(default = "default_emoji_separator")]`
and falls back to that function's value when absent. -/
def deserializeOutputConfig (f : OutputConfigToml) : Option OutputConfig :=
  match f.file_path, f.default_suffix with
  | some fp, some ds =>
    some { file_path := fp, default_suffix := ds,
           emoji_separator := f.emoji_separator.getD default_emoji_separator }
  | _, _ => none

/-- The deduplication loop only ever drops elements: its output is a
sublist of its input, in the original relative order. -/
theorem dedupeSeen_sublist (seen : List String) (es : List OutputEntry) :
    (dedupeSeen seen es).2.Sublist es := by
  induction es generalizing seen with
  | nil => simp [dedupeSeen]
  | cons e es ih =>
    by_cases hc : e.callsign ∈ seen
    · simpa [dedupeSeen, hc] using List.Sublist.cons e (ih seen)
    · simpa [dedupeSeen, hc] using List.Sublist.cons₂ e (ih (seen ++ [e.callsign]))

/-- The callsigns of the deduplication loop's output are pairwise distinct
and avoid every callsign already in `seen`. -/
theorem dedupeSeen_nodup (seen : List String) (es : List OutputEntry) :
    ((dedupeSeen seen es).2.map OutputEntry.callsign).Nodup ∧
      ∀ c ∈ seen, c ∉ (dedupeSeen seen es).2.map OutputEntry.callsign := by
  induction es generalizing seen with
  | nil => simp [dedupeSeen]
  | cons e es ih =>
    by_cases hc : e.callsign ∈ seen
    · simpa [dedupeSeen, hc] using ih seen
    · obtain ⟨hnd, hdisj⟩ := ih (seen ++ [e.callsign])
      simp only [dedupeSeen, hc, if_false, List.map_cons, List.nodup_cons]
      refine ⟨⟨hdisj e.callsign (by simp), hnd⟩, ?_⟩
      intro c hcseen
      simp only [List.mem_cons, not_or]
      exact ⟨fun hce => hc (hce ▸ hcseen), hdisj c (by simp [hcseen])⟩

/-- Per-callsign content of the deduplication loop's output: nothing for a
callsign already seen, otherwise exactly the first matching input entry. -/
theorem dedupeSeen_filter (seen : List String) (es : List OutputEntry) (c : String) :
    (dedupeSeen seen es).2.filter (fun e => e.callsign == c) =
      if c ∈ seen then [] else (es.filter (fun e => e.callsign == c)).take 1 := by
  induction es generalizing seen with
  | nil => by_cases h : c ∈ seen <;> simp [dedupeSeen, h]
  | cons e es ih =>
    by_cases hc : e.callsign ∈ seen
    · by_cases hec : e.callsign = c
      · subst hec
        simp [dedupeSeen, hc, ih seen, List.filter_cons]
      · simp [dedupeSeen, hc, ih seen, List.filter_cons, hec]
    · by_cases hec : e.callsign = c
      · subst hec
        have h2 : e.callsign ∈ seen ++ [e.callsign] := by simp
        simp [dedupeSeen, hc, List.filter_cons, ih (seen ++ [e.callsign]), h2]
      · have h2 : (c ∈ seen ++ [e.callsign]) ↔ c ∈ seen := by
          simp [Ne.symm hec]
        simp [dedupeSeen, hc, List.filter_cons, hec, ih (seen ++ [e.callsign]), h2]

/-- The `seen_callsigns` key set grows by exactly one key per kept entry,
so `seen.len() - unique.len()` is the initial `seen` size. -/
theorem dedupeSeen_length (seen : List String) (es : List OutputEntry) :
    (dedupeSeen seen es).1.length = seen.length + (dedupeSeen seen es).2.length := by
  induction es generalizing seen with
  | nil => simp [dedupeSeen]
  | cons e es ih =>
    by_cases hc : e.callsign ∈ seen
    · simpa [dedupeSeen, hc] using ih seen
    · have h := ih (seen ++ [e.callsign])
      simp only [dedupeSeen, hc, if_false, List.length_cons]
      simp only [List.length_append, List.length_singleton] at h
      rw [h]
      omega

/-- The duplicate count logged at src/main.rs line 204 is zero for every
input, because `seen_callsigns` and `unique_entries` always have equal size. -/
theorem reportedDuplicates_eq_zero (entries : List OutputEntry) :
    reportedDuplicates entries = 0 := by
  unfold reportedDuplicates
  have := dedupeSeen_length [] entries
  simp only [List.length_nil, Nat.zero_add] at this
  omega

/-- C1: the claim says the reported dropped count equals input length minus
unique output length.  The code computes `seen_callsigns.len() -
unique_entries.len()`, which is always 0: at the failing input of two
entries sharing callsign "W6JSV", the code reports 0 while the claimed
value is 1. -/
theorem dedupe_reported_count_bug :
    reportedDuplicates
        [{ callsign := "W6JSV", name := "Jay", suffix := "", emoji_separator := "R" },
         { callsign := "W6JSV", name := "Bob", suffix := "", emoji_separator := "R" }] = 0 ∧
      ([{ callsign := "W6JSV", name := "Jay", suffix := "", emoji_separator := "R" },
        { callsign := "W6JSV", name := "Bob", suffix := "", emoji_separator := "R" }] :
          List OutputEntry).length -
        (dedupeUnique
          [{ callsign := "W6JSV", name := "Jay", suffix := "", emoji_separator := "R" },
           { callsign := "W6JSV", name := "Bob", suffix := "", emoji_separator := "R" }]).length = 1 := by
  decide

/-- C2 counterexample: on `"W6JSV Bob W6JSV"` the parser derives the name
`"Bob"`, removing the second occurrence of the matched callsign as well,
whereas removing only the first occurrence (as the claim states) leaves
`"Bob W6JSV"`. -/
theorem parse_removes_later_occurrences :
    parse "W6JSV Bob W6JSV" = some { callsign := "W6JSV", name := "Bob" } ∧
      specNameRemoveFirst "W6JSV Bob W6JSV" "W6JSV" = "Bob W6JSV" ∧
      ("Bob" : String) ≠ "Bob W6JSV" := by
  decide

/-- C2 (amended): on every input on which parse succeeds, the derived name
removes every left-to-right, non-overlapping occurrence of the matched
callsign substring — later occurrences, including inside the remaining
name, are removed as well — then strips separators and trims (with the
empty-result fallback to the callsign). -/
theorem parse_name_removes_all_occurrences (s : String) (p : MemberInfo)
    (h : parse s = some p) : p.name = specNameRemoveAll s p.callsign := by
  unfold parse at h
  cases hf : findMatch s.toList with
  | none => rw [hf] at h; exact absurd h (by simp)
  | some st =>
    rw [hf] at h
    simp only [Option.some.injEq] at h
    subst h
    rfl

/-- Witness for the amended C2 at `"W6JSV - Jay"`. -/
theorem parse_name_removes_all_occurrences_w :
    parse "W6JSV - Jay" = some { callsign := "W6JSV", name := "Jay" } ∧
      (MemberInfo.mk "W6JSV" "Jay").name =
        specNameRemoveAll "W6JSV - Jay" (MemberInfo.mk "W6JSV" "Jay").callsign :=
  ⟨by decide,
   parse_name_removes_all_occurrences "W6JSV - Jay" (MemberInfo.mk "W6JSV" "Jay") (by decide)⟩

/-- C5: deduplication keeps a sublist of the input (so survivors appear in
their original relative order), no two surviving entries share a callsign,
and for every callsign string `c` (compared by exact string equality) the
survivors carry exactly the first input entry with that callsign. -/
theorem dedupe_keeps_first_per_callsign (entries : List OutputEntry) :
    (dedupeUnique entries).Sublist entries ∧
      ((dedupeUnique entries).map OutputEntry.callsign).Nodup ∧
      ∀ c, (dedupeUnique entries).filter (fun e => e.callsign == c) =
        (entries.filter (fun e => e.callsign == c)).take 1 := by
  refine ⟨dedupeSeen_sublist [] entries, (dedupeSeen_nodup [] entries).1, fun c => ?_⟩
  simpa using dedupeSeen_filter [] entries c

/-- C3: field-by-field precedence of the override branch — override field
if set, else parsed value (for callsign and name), else scope default (for
suffix and emoji separator), else the literal `"UNKNOWN"` (callsign) or the
fallback display string (name).  The first conjunct holds for every
`parsed`, so an explicit override callsign wins regardless of parse
success. -/
theorem override_precedence (ov : OverrideConfig) (parsed : Option MemberInfo)
    (display_name : String) (cfg : GuildConfigModel) :
    (∀ c, ov.callsign = some c →
      (resolveOverride ov parsed display_name cfg).callsign = c) ∧
    (ov.callsign = none → ∀ p, parsed = some p →
      (resolveOverride ov parsed display_name cfg).callsign = p.callsign) ∧
    (ov.callsign = none → parsed = none →
      (resolveOverride ov parsed display_name cfg).callsign = "UNKNOWN") ∧
    (∀ n, ov.name = some n →
      (resolveOverride ov parsed display_name cfg).name = n) ∧
    (ov.name = none → ∀ p, parsed = some p →
      (resolveOverride ov parsed display_name cfg).name = p.name) ∧
    (ov.name = none → parsed = none →
      (resolveOverride ov parsed display_name cfg).name = display_name) ∧
    (∀ sfx, ov.suffix = some sfx →
      (resolveOverride ov parsed display_name cfg).suffix = sfx) ∧
    (ov.suffix = none →
      (resolveOverride ov parsed display_name cfg).suffix = cfg.default_suffix) ∧
    (∀ em, ov.emoji = some em →
      (resolveOverride ov parsed display_name cfg).emoji_separator = em) ∧
    (ov.emoji = none →
      (resolveOverride ov parsed display_name cfg).emoji_separator = cfg.emoji_separator) := by
  refine ⟨fun c hc => ?_, fun hn p hp => ?_, fun hn hp => ?_, fun n hn => ?_,
    fun hn p hp => ?_, fun hn hp => ?_, fun sfx hs => ?_, fun hs => ?_,
    fun em he => ?_, fun he => ?_⟩ <;>
  simp_all [resolveOverride, Option.or]

/-- Witness for C3: an override with every field set pins all four fields
even though the parse succeeded with a different callsign; with no override
fields set, the parsed values and scope defaults come through. -/
theorem override_precedence_w :
    (resolveOverride ⟨some "K1A", some "Kay", some "[op]", some "E"⟩
        (some ⟨"W6JSV", "Jay"⟩) "disp" ⟨fun _ => none, "S", "R", none⟩).callsign = "K1A" ∧
      (resolveOverride ⟨none, none, none, none⟩
        (some ⟨"W6JSV", "Jay"⟩) "disp" ⟨fun _ => none, "S", "R", none⟩).name = "Jay" ∧
      (resolveOverride ⟨none, none, none, none⟩
        (some ⟨"W6JSV", "Jay"⟩) "disp" ⟨fun _ => none, "S", "R", none⟩).suffix = "S" :=
  ⟨(override_precedence ⟨some "K1A", some "Kay", some "[op]", some "E"⟩
      (some ⟨"W6JSV", "Jay"⟩) "disp" ⟨fun _ => none, "S", "R", none⟩).1 "K1A" rfl,
   (override_precedence ⟨none, none, none, none⟩
      (some ⟨"W6JSV", "Jay"⟩) "disp" ⟨fun _ => none, "S", "R", none⟩).2.2.2.2.1 rfl
      ⟨"W6JSV", "Jay"⟩ rfl,
   (override_precedence ⟨none, none, none, none⟩
      (some ⟨"W6JSV", "Jay"⟩) "disp" ⟨fun _ => none, "S", "R", none⟩).2.2.2.2.2.2.2.1 rfl⟩

/-- C4: the rendered text is the `"# TITLE: {title}\n"` header exactly when
a title is present, followed by one line per entry in ascending (byte-wise
lexicographic) callsign order, each line exactly
`"{callsign} {emoji_separator} {name} {suffix}\n"`, with a trailing space
before the newline when the suffix is empty. -/
theorem render_format (entries : List OutputEntry) (title : Option String) :
    ∃ l : List OutputEntry,
      l.Perm entries ∧
      List.Sorted (fun a b : String => a ≤ b) (l.map OutputEntry.callsign) ∧
      generate_output_content entries title =
        titleHeader title ++ String.join (l.map entryLine) ∧
      (∀ t, titleHeader (some t) = "# TITLE: " ++ t ++ "\n") ∧
      titleHeader none = "" ∧
      (∀ e, entryLine e =
        e.callsign ++ " " ++ e.emoji_separator ++ " " ++ e.name ++ " " ++ e.suffix ++ "\n") ∧
      (∀ c n em, entryLine ⟨c, n, "", em⟩ = c ++ " " ++ em ++ " " ++ n ++ " \n") := by
  refine ⟨List.insertionSort sortLE entries, List.perm_insertionSort sortLE entries,
    ?_, rfl, fun t => rfl, rfl, fun e => rfl,
    fun c n em => by
      simp only [entryLine, String.append_empty]
      rw [String.append_assoc]
      congr 1⟩
  exact List.pairwise_map.mpr (List.sorted_insertionSort sortLE entries)

/-- C7: the full pipeline's rendered output consists of the optional title
header followed by entry lines whose callsigns are strictly increasing in
byte-wise order — in particular no two entry lines share a callsign. -/
theorem rendered_output_invariants (cfg : GuildConfigModel)
    (qrz : Option (String → Except Unit CallsignInfo))
    (members : List Member) (botId : String) :
    ∃ u : List OutputEntry,
      (u.map OutputEntry.callsign).Pairwise (fun a b : String => a < b) ∧
      generate_member_list cfg qrz members botId =
        titleHeader cfg.title ++ String.join (u.map entryLine) := by
  refine ⟨List.insertionSort sortLE (dedupeUnique (memberEntries cfg qrz members botId)),
    ?_, rfl⟩
  have hsort : List.Sorted sortLE
      (List.insertionSort sortLE (dedupeUnique (memberEntries cfg qrz members botId))) :=
    List.sorted_insertionSort sortLE _
  have hperm : (List.insertionSort sortLE
      (dedupeUnique (memberEntries cfg qrz members botId))).Perm
      (dedupeUnique (memberEntries cfg qrz members botId)) :=
    List.perm_insertionSort sortLE _
  have hnd : ((dedupeUnique (memberEntries cfg qrz members botId)).map
      OutputEntry.callsign).Nodup :=
    (dedupeSeen_nodup [] (memberEntries cfg qrz members botId)).1
  have hnd2 : ((List.insertionSort sortLE
      (dedupeUnique (memberEntries cfg qrz members botId))).map
      OutputEntry.callsign).Nodup :=
    ((hperm.map OutputEntry.callsign).symm).nodup hnd
  have hle : ((List.insertionSort sortLE
      (dedupeUnique (memberEntries cfg qrz members botId))).map
      OutputEntry.callsign).Pairwise (fun a b : String => a ≤ b) :=
    List.pairwise_map.mpr hsort
  have hne : ((List.insertionSort sortLE
      (dedupeUnique (memberEntries cfg qrz members botId))).map
      OutputEntry.callsign).Pairwise (fun a b : String => a ≠ b) := hnd2
  exact (hle.and hne).imp fun h => lt_of_le_of_ne h.1 h.2

/-- C6: when a member's resolution reaches the QRZ lookup (no override,
successful parse, client available) and the lookup fails, the failure is
absorbed: the entry is still produced, its name is the previously computed
parsed name unchanged, and no error leaves the per-member step. -/
theorem qrz_failure_nonfatal (cfg : GuildConfigModel)
    (lookup : String → Except Unit CallsignInfo) (m : Member) (p : MemberInfo)
    (hov : cfg.overrides m.id = none)
    (hp : (resolveNameField m).1 = some p)
    (herr : lookup p.callsign = Except.error ()) :
    processMember cfg (some lookup) m =
      some { callsign := p.callsign, name := p.name,
             suffix := cfg.default_suffix, emoji_separator := cfg.emoji_separator } := by
  simp [processMember, hov, hp, herr]

/-- Witness for C6: a member whose nickname parses to `W6JSV`/`Jay`, a
lookup that always fails; the entry keeps the parsed name. -/
theorem qrz_failure_nonfatal_w :
    ((fun _ : String => (Except.error () : Except Unit CallsignInfo)) "W6JSV" =
      Except.error ()) ∧
    processMember ⟨fun _ => none, "S", "R", none⟩
        (some fun _ => Except.error ()) ⟨"42", some "W6JSV - Jay", none, "jay"⟩ =
      some { callsign := "W6JSV", name := "Jay", suffix := "S", emoji_separator := "R" } :=
  ⟨rfl,
   qrz_failure_nonfatal ⟨fun _ => none, "S", "R", none⟩ (fun _ => Except.error ())
     ⟨"42", some "W6JSV - Jay", none, "jay"⟩ ⟨"W6JSV", "Jay"⟩ rfl (by decide) rfl⟩

/-- C8: the pipeline is deterministic — two runs on equal snapshots, equal
configurations, equal bot identity and equal (fixed) directory-lookup
behaviour render byte-identical output. -/
theorem pipeline_deterministic (cfg₁ cfg₂ : GuildConfigModel)
    (qrz₁ qrz₂ : Option (String → Except Unit CallsignInfo))
    (ms₁ ms₂ : List Member) (b₁ b₂ : String)
    (hcfg : cfg₁ = cfg₂) (hqrz : qrz₁ = qrz₂) (hms : ms₁ = ms₂) (hb : b₁ = b₂) :
    generate_member_list cfg₁ qrz₁ ms₁ b₁ = generate_member_list cfg₂ qrz₂ ms₂ b₂ := by
  subst hcfg; subst hqrz; subst hms; subst hb; rfl

/-- Witness for C8 at a concrete snapshot and configuration. -/
theorem pipeline_deterministic_w :
    generate_member_list ⟨fun _ => none, "S", "R", none⟩ none
        [⟨"1", some "W6JSV - Jay", none, "jay"⟩] "9" =
      generate_member_list ⟨fun _ => none, "S", "R", none⟩ none
        [⟨"1", some "W6JSV - Jay", none, "jay"⟩] "9" :=
  pipeline_deterministic _ _ _ _ _ _ _ _ rfl rfl rfl rfl

/-- C9: for a member with an override rule, the QRZ lookup is never
invoked — the set of callsigns passed to the lookup is empty, the result
does not depend on the lookup behaviour at all, and the entry comes from
the override/parsed/display-name chain only. -/
theorem override_skips_qrz_lookup (cfg : GuildConfigModel)
    (qrz qrz' : Option (String → Except Unit CallsignInfo)) (m : Member)
    (ov : OverrideConfig) (hov : cfg.overrides m.id = some ov) :
    processMemberLookups cfg qrz m = [] ∧
      processMember cfg qrz m = processMember cfg qrz' m ∧
      processMember cfg qrz m =
        some (resolveOverride ov (resolveNameField m).1 (resolveNameField m).2 cfg) := by
  refine ⟨?_, ?_, ?_⟩ <;> simp [processMemberLookups, processMember, hov]

/-- Witness for C9: an override rule with no name field, a member whose
nickname parses, and a QRZ client whose lookups would succeed — the lookup
list is empty and the lookup function is immaterial. -/
theorem override_skips_qrz_lookup_w :
    processMemberLookups ⟨fun _ => some ⟨none, none, none, none⟩, "S", "R", none⟩
        (some fun _ => Except.ok ⟨some "Q", none, none⟩)
        ⟨"42", some "W6JSV - Jay", none, "jay"⟩ = [] ∧
      processMember ⟨fun _ => some ⟨none, none, none, none⟩, "S", "R", none⟩
          (some fun _ => Except.ok ⟨some "Q", none, none⟩)
          ⟨"42", some "W6JSV - Jay", none, "jay"⟩ =
        processMember ⟨fun _ => some ⟨none, none, none, none⟩, "S", "R", none⟩ none
          ⟨"42", some "W6JSV - Jay", none, "jay"⟩ ∧
      processMember ⟨fun _ => some ⟨none, none, none, none⟩, "S", "R", none⟩
          (some fun _ => Except.ok ⟨some "Q", none, none⟩)
          ⟨"42", some "W6JSV - Jay", none, "jay"⟩ =
        some (resolveOverride ⟨none, none, none, none⟩
          (resolveNameField ⟨"42", some "W6JSV - Jay", none, "jay"⟩).1
          (resolveNameField ⟨"42", some "W6JSV - Jay", none, "jay"⟩).2
          ⟨fun _ => some ⟨none, none, none, none⟩, "S", "R", none⟩) :=
  override_skips_qrz_lookup ⟨fun _ => some ⟨none, none, none, none⟩, "S", "R", none⟩
    (some fun _ => Except.ok ⟨some "Q", none, none⟩) none
    ⟨"42", some "W6JSV - Jay", none, "jay"⟩ ⟨none, none, none, none⟩ rfl

/-- C10: deserializing the `[output]` table with `emoji_separator` absent
succeeds and yields the literal `"📻"`, while omitting `default_suffix`
fails — it has no serde default. -/
theorem emoji_separator_default (fp ds es : String) :
    deserializeOutputConfig ⟨some fp, some ds, none⟩ =
      some ⟨fp, ds, "📻"⟩ ∧
      deserializeOutputConfig ⟨some fp, none, some es⟩ = none ∧
      deserializeOutputConfig ⟨some fp, none, none⟩ = none :=
  ⟨rfl, rfl, rfl⟩

end CallsignBot
